import Mathlib

/-!
Verification of the thomas-attractor-discretization repository.

Shallow embedding of the two source files:
  * `src/repo/thomas_flower_interface.py` — CSV/JSON interface (flower_index,
    ThomasFlowerConfig, load_configs, to_js_config, enrich_csv_with_fi).
    Python floats are modelled by `PFloat` (a real number or NaN), Python
    dynamic CSV cell values by `PyVal`, a pandas row by an association list.
  * `src/old-representations/thomas-flower.py` — the numerical script
    (rhodonea model, linspace subsampling, radial RMS error, forward-Euler
    Lyapunov estimator).  Real arithmetic is modelled exactly over `ℝ`.
-/

/-- Python float: either an ordinary real value or the distinguished NaN. -/
inductive PFloat where
  | nan : PFloat
  | val (x : ℝ) : PFloat

/-- Addition on Python floats; NaN propagates. -/
noncomputable def PFloat.add : PFloat → PFloat → PFloat
  | .val x, .val y => .val (x + y)
  | _, _ => .nan

/-- Subtraction on Python floats; NaN propagates. -/
noncomputable def PFloat.sub : PFloat → PFloat → PFloat
  | .val x, .val y => .val (x - y)
  | _, _ => .nan

/-- Multiplication on Python floats; NaN propagates. -/
noncomputable def PFloat.mul : PFloat → PFloat → PFloat
  | .val x, .val y => .val (x * y)
  | _, _ => .nan

/-- Division on Python floats; NaN propagates.  A zero divisor is mapped to
NaN: in the source, division only occurs inside try/except blocks
(`flower_index`, `_fi`, `_delta`) whose handlers turn the raised
ZeroDivisionError into `float("nan")`. -/
noncomputable def PFloat.div : PFloat → PFloat → PFloat
  | .val x, .val y => if y = 0 then .nan else .val (x / y)
  | _, _ => .nan

/-- Negation on Python floats; NaN propagates. -/
noncomputable def PFloat.neg : PFloat → PFloat
  | .val x => .val (-x)
  | .nan => .nan

/-- math.exp on Python floats; NaN propagates. -/
noncomputable def PFloat.exp : PFloat → PFloat
  | .val x => .val (Real.exp x)
  | .nan => .nan

/-- math.cos on Python floats; NaN propagates. -/
noncomputable def PFloat.cos : PFloat → PFloat
  | .val x => .val (Real.cos x)
  | .nan => .nan

/-- abs on Python floats; NaN propagates. -/
noncomputable def PFloat.abs : PFloat → PFloat
  | .val x => .val |x|
  | .nan => .nan

/-- The IEEE `<` comparison: comparisons involving NaN are false. -/
def PFloat.lt : PFloat → PFloat → Prop
  | .val x, .val y => x < y
  | _, _ => False

noncomputable instance : DecidableRel PFloat.lt := fun a b =>
  match a, b with
  | .val x, .val y => inferInstanceAs (Decidable (x < y))
  | .nan, .nan => isFalse (fun h => h)
  | .nan, .val _ => isFalse (fun h => h)
  | .val _, .nan => isFalse (fun h => h)

/-- flower_index (thomas_flower_interface.py lines 46–58):
FI = (1 / (1 + E_flower)) * exp(-lambda_max); returns NaN if either input
is None or negative (the try/except wrapper is absorbed into `PFloat.div`). -/
noncomputable def flower_index : Option PFloat → Option PFloat → PFloat
  | Option.none, _ => .nan
  | some _, Option.none => .nan
  | some E, some lam =>
    if PFloat.lt E (.val 0) ∨ PFloat.lt lam (.val 0) then .nan
    else PFloat.mul (PFloat.div (.val 1) (PFloat.add (.val 1) E)) (PFloat.exp (PFloat.neg lam))

/-- The Flower Index value on valid numeric inputs, as a real function. -/
noncomputable def fiVal (E lam : ℝ) : ℝ := 1 / (1 + E) * Real.exp (-lam)

/-- Errors a Python expression in this module can raise. -/
inductive PyErr where
  | typeError : PyErr
  | valueError : PyErr
  | keyError : PyErr
deriving DecidableEq

/-- Dynamic value held in a pandas cell (the types that occur in this module). -/
inductive PyVal where
  | pyNone : PyVal
  | float (f : PFloat) : PyVal
  | int (n : ℤ) : PyVal
  | str (s : String) : PyVal

/-- Python int() truncation toward zero of a real number. -/
noncomputable def truncToInt (x : ℝ) : ℤ := if 0 ≤ x then ⌊x⌋ else ⌈x⌉

/-- Python float() applied to a cell value.  float(None) raises TypeError.
String cells in this CSV are non-numeric labels, so float(str) raises
ValueError (parsing of numeric text is not needed by any analysed path:
pandas already delivers numeric columns as floats). -/
def PyVal.toFloat : PyVal → Except PyErr PFloat
  | .pyNone => .error .typeError
  | .float f => .ok f
  | .int n => .ok (.val (n : ℝ))
  | .str _ => .error .valueError

/-- Python int() applied to a cell value.  int(None) raises TypeError,
int(float("nan")) raises ValueError, int() of a finite float truncates
toward zero. -/
noncomputable def PyVal.toInt : PyVal → Except PyErr ℤ
  | .pyNone => .error .typeError
  | .float (.val x) => .ok (truncToInt x)
  | .float .nan => .error .valueError
  | .int n => .ok n
  | .str _ => .error .valueError

/-- Python str() of a cell value.  str(None) = "None".  Text rendering of
numeric values is not modelled (no analysed behaviour depends on it). -/
def pystr : PyVal → String
  | .pyNone => "None"
  | .str s => s
  | .float _ => ""
  | .int _ => ""

/-- pd.isna: true exactly for None and float NaN. -/
def pd_isna : PyVal → Bool
  | .pyNone => true
  | .float .nan => true
  | _ => false

/-- One pandas row: an association list from column name to cell value. -/
abbrev Row : Type := List (String × PyVal)

/-- row.get(key): None when the column is absent (pandas Series.get default). -/
def Row.get (row : Row) (k : String) : PyVal :=
  (List.lookup k row).getD .pyNone

/-- row.get(key, default). -/
def Row.getD (row : Row) (k : String) (d : PyVal) : PyVal :=
  (List.lookup k row).getD d

/-- row[key]: raises KeyError when the column is absent. -/
def Row.item (row : Row) (k : String) : Except PyErr PyVal :=
  match List.lookup k row with
  | Option.none => .error .keyError
  | some v => .ok v

/-- ThomasFlowerConfig (thomas_flower_interface.py lines 61–82). -/
structure ThomasFlowerConfig where
  id : String
  description : String
  b : PFloat
  dt : PFloat
  steps : ℤ
  transient_steps : ℤ
  seed_x : PFloat
  seed_y : PFloat
  seed_z : PFloat
  projection_plane : String
  rotation_axis : String
  rotation_angle_rad : PFloat
  rhodonea_k : PFloat
  rhodonea_m : PFloat
  rhodonea_phi : PFloat
  rhodonea_a : PFloat
  E_flower : Option PFloat
  lambda_max : Option PFloat
  FI_reported : Option PFloat
  notes : String

/-- compute_fi (line 88–89): flower_index(self.E_flower, self.lambda_max). -/
noncomputable def ThomasFlowerConfig.compute_fi (c : ThomasFlowerConfig) : PFloat :=
  flower_index c.E_flower c.lambda_max

/-- rhodonea_r (lines 91–93): r(θ) = a * cos(k*m*θ + φ) — note the product
k*m in the argument, as written in the source. -/
noncomputable def ThomasFlowerConfig.rhodonea_r (c : ThomasFlowerConfig) (theta : PFloat) : PFloat :=
  PFloat.mul c.rhodonea_a
    (PFloat.cos (PFloat.add (PFloat.mul (PFloat.mul c.rhodonea_k c.rhodonea_m) theta) c.rhodonea_phi))

/-- JSON-serializable value (what json.dump consumes). -/
inductive JVal where
  | jnull : JVal
  | jstr (s : String) : JVal
  | jnum (f : PFloat) : JVal
  | jint (n : ℤ) : JVal
  | jarr (xs : List JVal) : JVal
  | jobj (fields : List (String × JVal)) : JVal

/-- Serialization of an optional float: Python None becomes JSON null. -/
def optJ : Option PFloat → JVal
  | Option.none => .jnull
  | some f => .jnum f

/-- to_js_config (lines 95–127), translated field for field. -/
noncomputable def ThomasFlowerConfig.to_js_config (c : ThomasFlowerConfig) : JVal :=
  .jobj [
    ("id", .jstr c.id),
    ("description", .jstr c.description),
    ("model", .jobj [
      ("b", .jnum c.b),
      ("dt", .jnum c.dt),
      ("steps", .jint c.steps),
      ("transient_steps", .jint c.transient_steps),
      ("seed", .jarr [.jnum c.seed_x, .jnum c.seed_y, .jnum c.seed_z])]),
    ("projection", .jobj [
      ("plane", .jstr c.projection_plane),
      ("rotation", .jobj [
        ("axis", .jstr c.rotation_axis),
        ("angle_rad", .jnum c.rotation_angle_rad)])]),
    ("rhodonea", .jobj [
      ("k", .jnum c.rhodonea_k),
      ("m", .jnum c.rhodonea_m),
      ("phi", .jnum c.rhodonea_phi),
      ("a", .jnum c.rhodonea_a),
      ("formula", .jstr "r(theta) = a * cos(k*m*theta + phi)")]),
    ("metrics", .jobj [
      ("E_flower", optJ c.E_flower),
      ("lambda_max", optJ c.lambda_max),
      ("FI_computed", .jnum c.compute_fi),
      ("FI_reported", optJ c.FI_reported)]),
    ("notes", .jstr c.notes)]

/-- export_js_config (lines 160–163): the serialized payload is the list of
per-config documents. -/
noncomputable def export_js_config (configs : List ThomasFlowerConfig) : JVal :=
  .jarr (configs.map ThomasFlowerConfig.to_js_config)

/-- Keys of a JSON object, in order. -/
def objKeys : JVal → List String
  | .jobj fields => fields.map Prod.fst
  | _ => []

/-- Field access in a JSON object. -/
def lookupJ (j : JVal) (k : String) : Option JVal :=
  match j with
  | .jobj fields => List.lookup k fields
  | _ => Option.none

/-- Loading of one row into a ThomasFlowerConfig (body of the loop of
load_configs, lines 134–155).  Conversions are performed in the order the
keyword arguments are written in the source; the first raising conversion
aborts with its error, exactly as in Python. -/
noncomputable def loadConfig (row : Row) : Except PyErr ThomasFlowerConfig := do
  let id := pystr (row.get "id")
  let description := pystr (row.getD "description" (.str ""))
  let b ← (row.get "b").toFloat
  let dt ← (row.get "dt").toFloat
  let steps ← (row.get "steps").toInt
  let transient_steps ← (row.get "transient_steps").toInt
  let seed_x ← (row.get "seed_x").toFloat
  let seed_y ← (row.get "seed_y").toFloat
  let seed_z ← (row.get "seed_z").toFloat
  let projection_plane := pystr (row.get "projection_plane")
  let rotation_axis := pystr (row.get "rotation_axis")
  let rotation_angle_rad ← (row.get "rotation_angle_rad").toFloat
  let rhodonea_k ← (row.get "rhodonea_k").toFloat
  let rhodonea_m ← (row.get "rhodonea_m").toFloat
  let rhodonea_phi ← (row.get "rhodonea_phi").toFloat
  let rhodonea_a ← (row.get "rhodonea_a").toFloat
  let E_flower ← if pd_isna (row.get "E_flower") then pure Option.none
    else do
      let v ← (row.get "E_flower").toFloat
      pure (some v)
  let lambda_max ← if pd_isna (row.get "lambda_max") then pure Option.none
    else do
      let v ← (row.get "lambda_max").toFloat
      pure (some v)
  let FI_reported ← if pd_isna (row.get "FI_reported") then pure Option.none
    else do
      let v ← (row.get "FI_reported").toFloat
      pure (some v)
  let notes := pystr (row.getD "notes" (.str ""))
  pure {
    id := id, description := description, b := b, dt := dt,
    steps := steps, transient_steps := transient_steps,
    seed_x := seed_x, seed_y := seed_y, seed_z := seed_z,
    projection_plane := projection_plane, rotation_axis := rotation_axis,
    rotation_angle_rad := rotation_angle_rad,
    rhodonea_k := rhodonea_k, rhodonea_m := rhodonea_m,
    rhodonea_phi := rhodonea_phi, rhodonea_a := rhodonea_a,
    E_flower := E_flower, lambda_max := lambda_max,
    FI_reported := FI_reported, notes := notes }

/-- load_configs (lines 130–157): the loop appends the configs in order; an
exception raised while building any row's config propagates and aborts the
whole call (there is no per-row try/except in the source). -/
noncomputable def load_configs : List Row → Except PyErr (List ThomasFlowerConfig)
  | [] => .ok []
  | row :: rest =>
    match loadConfig row with
    | .error e => .error e
    | .ok c =>
      match load_configs rest with
      | .error e => .error e
      | .ok cs => .ok (c :: cs)

/-- The helper _fi of enrich_csv_with_fi (lines 169–175): any exception
(KeyError for a missing column, ValueError/TypeError from float()) is caught
and turned into NaN; otherwise flower_index(E, L). -/
noncomputable def fiCell (row : Row) : PFloat :=
  match row.item "E_flower" with
  | .error _ => .nan
  | .ok vE =>
    match vE.toFloat with
    | .error _ => .nan
    | .ok E =>
      match row.item "lambda_max" with
      | .error _ => .nan
      | .ok vL =>
        match vL.toFloat with
        | .error _ => .nan
        | .ok L => flower_index (some E) (some L)

/-- The helper _delta of enrich_csv_with_fi (lines 179–185):
abs(FI_reported − FI_computed), NaN on any exception. -/
noncomputable def deltaCell (row : Row) : PFloat :=
  match row.item "FI_reported" with
  | .error _ => .nan
  | .ok vR =>
    match vR.toFloat with
    | .error _ => .nan
    | .ok r =>
      match row.item "FI_computed" with
      | .error _ => .nan
      | .ok vC =>
        match vC.toFloat with
        | .error _ => .nan
        | .ok c => PFloat.abs (PFloat.sub r c)

/-- pandas column assignment df[name] = vals: replaces the column in place
when it already exists, otherwise appends it on the right. -/
def setCol (df : List Row) (name : String) (vals : List PFloat) : List Row :=
  List.zipWith (fun (row : Row) v =>
    if (List.lookup name row).isSome then
      row.map (fun kv => if kv.1 = name then (name, PyVal.float v) else kv)
    else row ++ [(name, PyVal.float v)]) df vals

/-- enrich_csv_with_fi (lines 166–187) on the in-memory table: first the
FI_computed column is computed from the input rows and assigned, then the
FI_delta column is computed from the resulting rows and assigned. -/
noncomputable def enrich_csv_with_fi (df : List Row) : List Row :=
  let df1 := setCol df "FI_computed" (df.map fiCell)
  setCol df1 "FI_delta" (df1.map deltaCell)

/-- Row enrichment as the spec describes it: the row itself, unchanged, plus
the appended FI_computed cell, plus the appended FI_delta cell (the delta is
evaluated on the row already carrying FI_computed, as in the source). -/
noncomputable def enrichRow (row : Row) : Row :=
  (row ++ [("FI_computed", PyVal.float (fiCell row))]) ++
    [("FI_delta", PyVal.float (deltaCell (row ++ [("FI_computed", PyVal.float (fiCell row))])))]

/-! Embedding of src/old-representations/thomas-flower.py — exact real
arithmetic. -/

/-- A 3-D state vector. -/
structure Vec3 where
  x : ℝ
  y : ℝ
  z : ℝ

/-- The Thomas vector field (lines 8–13): (sin y − b·x, sin z − b·y, sin x − b·z). -/
noncomputable def thomasField (b : ℝ) (p : Vec3) : Vec3 :=
  ⟨Real.sin p.y - b * p.x, Real.sin p.z - b * p.y, Real.sin p.x - b * p.z⟩

/-- One forward-Euler update: state + derivative*dt (lines 51–54). -/
noncomputable def eulerStep (b dt : ℝ) (p : Vec3) : Vec3 :=
  ⟨p.x + (Real.sin p.y - b * p.x) * dt,
   p.y + (Real.sin p.z - b * p.y) * dt,
   p.z + (Real.sin p.x - b * p.z) * dt⟩

/-- Euclidean separation of the two trajectories (lines 47 and 55). -/
noncomputable def dist3 (p q : Vec3) : ℝ :=
  Real.sqrt ((q.x - p.x) ^ 2 + (q.y - p.y) ^ 2 + (q.z - p.z) ^ 2)

/-- Loop state of lyapunov_estimate: the two trajectories, the reference
separation d0, the accumulated log sum and the event count n. -/
structure LyapState where
  p1 : Vec3
  p2 : Vec3
  d0 : ℝ
  d_sum : ℝ
  n : ℕ

/-- One iteration of the loop of lyapunov_estimate (lines 50–59): advance
both trajectories one Euler step, then if the new separation d is positive
accumulate ln(d/d0), reset d0 to d and count the event. -/
noncomputable def lyapStep (b dt : ℝ) (s : LyapState) : LyapState :=
  if 0 < dist3 (eulerStep b dt s.p1) (eulerStep b dt s.p2) then
    { p1 := eulerStep b dt s.p1, p2 := eulerStep b dt s.p2,
      d0 := dist3 (eulerStep b dt s.p1) (eulerStep b dt s.p2),
      d_sum := s.d_sum + Real.log (dist3 (eulerStep b dt s.p1) (eulerStep b dt s.p2) / s.d0),
      n := s.n + 1 }
  else
    { p1 := eulerStep b dt s.p1, p2 := eulerStep b dt s.p2,
      d0 := s.d0, d_sum := s.d_sum, n := s.n }

/-- Number of loop iterations: range(int(T/dt)), i.e. max(trunc(T/dt), 0). -/
noncomputable def numSteps (T dt : ℝ) : ℕ := (truncToInt (T / dt)).toNat

/-- Initial loop state (lines 44–49): trajectory 1 at (1,1,1), trajectory 2
offset by eps in x, d0 their separation, zero sum, zero count.  The source
fixes eps = 1e-8 locally; the spec (§4.4, §8) treats the perturbation ε as a
caller-supplied knob, so the embedding takes it as a parameter
(`lyapunov_estimate_src` below restores the source's constant). -/
noncomputable def lyapInit (eps : ℝ) : LyapState :=
  { p1 := ⟨1, 1, 1⟩, p2 := ⟨1 + eps, 1, 1⟩,
    d0 := dist3 ⟨1, 1, 1⟩ ⟨1 + eps, 1, 1⟩, d_sum := 0, n := 0 }

/-- Loop state after all int(T/dt) iterations. -/
noncomputable def lyapFinal (b T dt eps : ℝ) : LyapState :=
  (lyapStep b dt)^[numSteps T dt] (lyapInit eps)

/-- lyapunov_estimate (lines 43–60): d_sum/(n*dt) if n>0 else 0. -/
noncomputable def lyapunov_estimate (b T dt eps : ℝ) : ℝ :=
  if 0 < (lyapFinal b T dt eps).n then
    (lyapFinal b T dt eps).d_sum / (((lyapFinal b T dt eps).n : ℝ) * dt)
  else 0

/-- lyapunov_estimate with the source's hard-coded perturbation 1e-8. -/
noncomputable def lyapunov_estimate_src (b T dt : ℝ) : ℝ :=
  lyapunov_estimate b T dt (1e-8)

/-- rhodonea (lines 31–32): the model fitted by curve_fit,
r(θ) = a * cos((k/m)·θ + φ) — note the quotient k/m. -/
noncomputable def rhodonea (theta k m phi a : ℝ) : ℝ :=
  a * Real.cos (k / m * theta + phi)

/-- Modelled from the spec: the rose-curve model the spec's data model
states, r(θ) = a·cos((k/m)·θ + φ). -/
noncomputable def rhodoneaDivModel (theta k m phi a : ℝ) : ℝ :=
  a * Real.cos (k / m * theta + phi)

/-- Modelled from the spec: the alternative rose-curve model the spec flags,
r(θ) = a·cos(k·m·θ + φ). -/
noncomputable def rhodoneaMulModel (theta k m phi a : ℝ) : ℝ :=
  a * Real.cos (k * m * theta + phi)

/-- Index i of np.linspace(0, n−1, m).astype(int): the evenly spaced value
i·(n−1)/(m−1) truncated to an integer (exact-rational model of line 35). -/
def linIdx (n m i : ℕ) : ℕ := i * (n - 1) / (m - 1)

/-- The full index list np.linspace(0, len−1, m).astype(int) (line 35). -/
def linspaceIdx (n m : ℕ) : List ℕ := (List.range m).map (linIdx n m)

/-- Fancy indexing xs[idx] (line 36): the samples at the chosen indices. -/
def selectIdx (xs : List ℝ) (idx : List ℕ) : List ℝ := idx.map (fun i => xs.getD i 0)

/-- The angle subset theta[idx] passed to curve_fit (lines 35–36), with the
source's subset size 8000. -/
def fitThetaSubset (thetaL : List ℝ) : List ℝ :=
  selectIdx thetaL (linspaceIdx thetaL.length 8000)

/-- The radius subset r[idx] passed to curve_fit (lines 35–36). -/
def fitRadiusSubset (rL : List ℝ) : List ℝ :=
  selectIdx rL (linspaceIdx rL.length 8000)

/-- E_flower (lines 39–40): r_fit = rhodonea(theta, *popt) over the FULL
angle list, then sqrt(mean((r − r_fit)^2)) over the full sample set. -/
noncomputable def E_flower_calc (thetaL rL : List ℝ) (k m phi a : ℝ) : ℝ :=
  Real.sqrt ((List.zipWith (fun rr th => (rr - rhodonea th k m phi a) ^ 2) rL thetaL).sum
    / (rL.length : ℝ))

/-- Modelled from the spec: the radial RMS error E = sqrt(mean((r_observed −
r_model)^2)) evaluated over the full, non-subsampled sample set with the
fitted parameters. -/
noncomputable def E_spec_full (thetaL rL : List ℝ) (k m phi a : ℝ) : ℝ :=
  Real.sqrt ((List.zipWith (fun rr th => (rr - rhodonea th k m phi a) ^ 2) rL thetaL).sum
    / (rL.length : ℝ))

/-- Result object of scipy.integrate.solve_ivp as the script consumes it:
the success flag and the sample list sol.y.  When the solver cannot satisfy
its tolerance it returns success = false together with the partial samples
it produced; solve_ivp itself raises nothing in that case. -/
structure SolveIvpResult where
  success : Bool
  y : List Vec3

/-- Line 24 (`x, y, z = sol.y`): the script unpacks the solver's samples
unconditionally — there is no check of sol.success anywhere in the script. -/
def trajectory_samples (sol : SolveIvpResult) : List Vec3 := sol.y

/-- Line 27 (`r = np.sqrt(x**2 + y**2)`): the radial projection is computed
over however many samples the solver returned. -/
noncomputable def proj_r (sol : SolveIvpResult) : List ℝ :=
  sol.y.map (fun p => Real.sqrt (p.x ^ 2 + p.y ^ 2))

/-- The requested sample count of line 18 (np.linspace over t_span, 100000
points). -/
def requestedSamples : ℕ := 100000

/-! Concrete inputs used by counterexamples and witnesses. -/

/-- A config whose rhodonea parameters are k=1, m=2, φ=0, a=1 (the other
fields are irrelevant to the radius function). -/
noncomputable def cfg0 : ThomasFlowerConfig :=
  { id := "c0", description := "", b := .val 1, dt := .val 1,
    steps := 1, transient_steps := 0,
    seed_x := .val 1, seed_y := .val 1, seed_z := .val 1,
    projection_plane := "xy", rotation_axis := "z",
    rotation_angle_rad := .val 0,
    rhodonea_k := .val 1, rhodonea_m := .val 2,
    rhodonea_phi := .val 0, rhodonea_a := .val 1,
    E_flower := Option.none, lambda_max := Option.none,
    FI_reported := Option.none, notes := "" }

/-- A well-formed CSV row carrying every required field. -/
noncomputable def goodRow : Row :=
  [("id", .str "a"), ("b", .float (.val 1)), ("dt", .float (.val 1)),
   ("steps", .int 10), ("transient_steps", .int 0),
   ("seed_x", .float (.val 1)), ("seed_y", .float (.val 1)), ("seed_z", .float (.val 1)),
   ("projection_plane", .str "xy"), ("rotation_axis", .str "z"),
   ("rotation_angle_rad", .float (.val 0)),
   ("rhodonea_k", .float (.val 1)), ("rhodonea_m", .float (.val 2)),
   ("rhodonea_phi", .float (.val 0)), ("rhodonea_a", .float (.val 1))]

/-- The config goodRow loads to. -/
noncomputable def cfgGood : ThomasFlowerConfig :=
  { id := "a", description := "", b := .val 1, dt := .val 1,
    steps := 10, transient_steps := 0,
    seed_x := .val 1, seed_y := .val 1, seed_z := .val 1,
    projection_plane := "xy", rotation_axis := "z",
    rotation_angle_rad := .val 0,
    rhodonea_k := .val 1, rhodonea_m := .val 2,
    rhodonea_phi := .val 0, rhodonea_a := .val 1,
    E_flower := Option.none, lambda_max := Option.none,
    FI_reported := Option.none, notes := "" }

/-! Helper lemmas about `PFloat`. -/

@[simp] theorem PFloat.val_add (x y : ℝ) : PFloat.add (.val x) (.val y) = .val (x + y) := rfl

@[simp] theorem PFloat.val_sub (x y : ℝ) : PFloat.sub (.val x) (.val y) = .val (x - y) := rfl

@[simp] theorem PFloat.val_mul (x y : ℝ) : PFloat.mul (.val x) (.val y) = .val (x * y) := rfl

@[simp] theorem PFloat.val_neg (x : ℝ) : PFloat.neg (.val x) = .val (-x) := rfl

@[simp] theorem PFloat.val_exp (x : ℝ) : PFloat.exp (.val x) = .val (Real.exp x) := rfl

@[simp] theorem PFloat.val_cos (x : ℝ) : PFloat.cos (.val x) = .val (Real.cos x) := rfl

@[simp] theorem PFloat.val_abs (x : ℝ) : PFloat.abs (.val x) = .val |x| := rfl

@[simp] theorem PFloat.lt_val_iff (x y : ℝ) : PFloat.lt (.val x) (.val y) ↔ x < y := Iff.rfl

theorem PFloat.val_div (x y : ℝ) (h : y ≠ 0) :
    PFloat.div (.val x) (.val y) = .val (x / y) := by
  simp [PFloat.div, h]

/-- On nonnegative numeric inputs, flower_index takes the else branch and
computes the real value `fiVal`. -/
theorem flower_index_val (E lam : ℝ) (hE : 0 ≤ E) (hl : 0 ≤ lam) :
    flower_index (some (.val E)) (some (.val lam)) = .val (fiVal E lam) := by
  show (if PFloat.lt (.val E) (.val 0) ∨ PFloat.lt (.val lam) (.val 0) then PFloat.nan
    else PFloat.mul (PFloat.div (.val 1) (PFloat.add (.val 1) (.val E)))
      (PFloat.exp (PFloat.neg (.val lam)))) = .val (fiVal E lam)
  rw [if_neg]
  · rw [show PFloat.add (.val 1) (.val E) = .val (1 + E) from rfl,
      PFloat.val_div 1 (1 + E) (by positivity)]
    rfl
  · rintro (h | h)
    · exact absurd (PFloat.lt_val_iff _ _ |>.mp h) (not_lt.mpr hE)
    · exact absurd (PFloat.lt_val_iff _ _ |>.mp h) (not_lt.mpr hl)

/-- C1: flower_index returns (1/(1+E))·exp(−λ) on present nonnegative
inputs, and the distinguished NaN (never a number) when either input is
missing (None) or negative. -/
theorem C1_flower_index_contract :
    (∀ E lam : ℝ, 0 ≤ E → 0 ≤ lam →
      flower_index (some (.val E)) (some (.val lam)) = .val (1 / (1 + E) * Real.exp (-lam))) ∧
    (∀ y, flower_index Option.none y = .nan) ∧
    (∀ x, flower_index x Option.none = .nan) ∧
    (∀ E lam : ℝ, E < 0 → flower_index (some (.val E)) (some (.val lam)) = .nan) ∧
    (∀ E lam : ℝ, lam < 0 → flower_index (some (.val E)) (some (.val lam)) = .nan) ∧
    (∀ x : ℝ, PFloat.nan ≠ PFloat.val x) := by
  refine ⟨fun E lam hE hl => flower_index_val E lam hE hl, fun y => rfl, ?_, ?_, ?_, ?_⟩
  · intro x
    match x with
    | Option.none => rfl
    | some _ => rfl
  · intro E lam h
    show (if PFloat.lt (.val E) (.val 0) ∨ PFloat.lt (.val lam) (.val 0) then PFloat.nan
      else PFloat.mul (PFloat.div (.val 1) (PFloat.add (.val 1) (.val E)))
        (PFloat.exp (PFloat.neg (.val lam)))) = PFloat.nan
    rw [if_pos (Or.inl ((PFloat.lt_val_iff _ _).mpr h))]
  · intro E lam h
    show (if PFloat.lt (.val E) (.val 0) ∨ PFloat.lt (.val lam) (.val 0) then PFloat.nan
      else PFloat.mul (PFloat.div (.val 1) (PFloat.add (.val 1) (.val E)))
        (PFloat.exp (PFloat.neg (.val lam)))) = PFloat.nan
    rw [if_pos (Or.inr ((PFloat.lt_val_iff _ _).mpr h))]
  · intro x h
    cases h

/-- C1 witness: the contract evaluated at concrete inputs. -/
theorem C1_witness :
    (0 : ℝ) ≤ 1 ∧
    flower_index (some (.val 1)) (some (.val 0)) = .val (1 / (1 + 1) * Real.exp (-0)) ∧
    (-1 : ℝ) < 0 ∧
    flower_index (some (.val (-1))) (some (.val 0)) = .nan ∧
    flower_index (some (.val 0)) (some (.val (-1))) = .nan :=
  ⟨by norm_num, C1_flower_index_contract.1 1 0 (by norm_num) le_rfl, by norm_num,
   C1_flower_index_contract.2.2.2.1 (-1) 0 (by norm_num),
   C1_flower_index_contract.2.2.2.2.1 0 (-1) (by norm_num)⟩

/-- C6: FI(0,0) = 1 exactly; on E,λ ≥ 0 the value is in (0,1] and strictly
decreasing in each argument. -/
theorem C6_combiner_wellbehaved :
    flower_index (some (.val 0)) (some (.val 0)) = .val 1 ∧
    (∀ E lam : ℝ, 0 ≤ E → 0 ≤ lam →
      flower_index (some (.val E)) (some (.val lam)) = .val (fiVal E lam) ∧
      0 < fiVal E lam ∧ fiVal E lam ≤ 1) ∧
    (∀ E1 E2 lam : ℝ, 0 ≤ E1 → E1 < E2 → fiVal E2 lam < fiVal E1 lam) ∧
    (∀ E lam1 lam2 : ℝ, 0 ≤ E → lam1 < lam2 → fiVal E lam2 < fiVal E lam1) := by
  refine ⟨?_, ?_, ?_, ?_⟩
  · rw [flower_index_val 0 0 le_rfl le_rfl]
    norm_num [fiVal]
  · intro E lam hE hl
    refine ⟨flower_index_val E lam hE hl, ?_, ?_⟩
    · have h1 : 0 < 1 / (1 + E) := by positivity
      exact mul_pos h1 (Real.exp_pos _)
    · have h1 : 1 / (1 + E) ≤ 1 := by
        rw [div_le_one (by linarith)]
        linarith
      have h2 : Real.exp (-lam) ≤ 1 := by
        rw [show (1 : ℝ) = Real.exp 0 from (Real.exp_zero).symm]
        exact Real.exp_le_exp.mpr (by linarith)
      have h3 : (0 : ℝ) ≤ Real.exp (-lam) := (Real.exp_pos _).le
      calc 1 / (1 + E) * Real.exp (-lam) ≤ 1 * Real.exp (-lam) := by
            exact mul_le_mul_of_nonneg_right h1 h3
        _ = Real.exp (-lam) := one_mul _
        _ ≤ 1 := h2
  · intro E1 E2 lam hE1 hlt
    unfold fiVal
    have h : 1 / (1 + E2) < 1 / (1 + E1) :=
      one_div_lt_one_div_of_lt (by linarith) (by linarith)
    exact mul_lt_mul_of_pos_right h (Real.exp_pos _)
  · intro E lam1 lam2 hE hlt
    unfold fiVal
    have h : Real.exp (-lam2) < Real.exp (-lam1) :=
      Real.exp_lt_exp.mpr (by linarith)
    exact mul_lt_mul_of_pos_left h (by positivity)

/-- C6 witness: the combiner properties evaluated at concrete inputs. -/
theorem C6_witness :
    (0 : ℝ) ≤ 1 ∧
    flower_index (some (.val 1)) (some (.val 0)) = .val (fiVal 1 0) ∧
    0 < fiVal 1 0 ∧ fiVal 1 0 ≤ 1 ∧
    fiVal 1 0 < fiVal 0 0 ∧ fiVal 0 1 < fiVal 0 0 := by
  have h2 := C6_combiner_wellbehaved.2.1 1 0 (by norm_num) le_rfl
  exact ⟨by norm_num, h2.1, h2.2.1, h2.2.2,
    C6_combiner_wellbehaved.2.2.1 0 1 0 le_rfl (by norm_num),
    C6_combiner_wellbehaved.2.2.2 0 0 1 le_rfl (by norm_num)⟩

/-- C2 counterexample: the interface's radius function rhodonea_r (which
computes a·cos(k·m·θ+φ)) disagrees with the script's fitted model rhodonea
(which computes a·cos((k/m)·θ+φ)) at k=1, m=2, φ=0, a=1, θ=π: the former
gives cos 2π = 1, the latter cos (π/2) = 0. -/
theorem C2_counterexample :
    cfg0.rhodonea_r (.val Real.pi) ≠ .val (rhodonea Real.pi 1 2 0 1) := by
  have hL : cfg0.rhodonea_r (.val Real.pi) = .val 1 := by
    show PFloat.mul (.val 1)
      (PFloat.cos (PFloat.add (PFloat.mul (PFloat.mul (.val 1) (.val 2)) (.val Real.pi)) (.val 0)))
      = .val 1
    simp only [PFloat.val_mul, PFloat.val_add, PFloat.val_cos]
    rw [show (1 : ℝ) * 2 * Real.pi + 0 = 2 * Real.pi from by ring, Real.cos_two_pi]
    norm_num
  have hR : rhodonea Real.pi 1 2 0 1 = 0 := by
    unfold rhodonea
    rw [show (1 : ℝ) / 2 * Real.pi + 0 = Real.pi / 2 from by ring, Real.cos_pi_div_two]
    ring
  rw [hL, hR]
  intro h
  have := PFloat.val.inj h
  norm_num at this

/-- C2 amended: the script's fitted model rhodonea evaluates the k/m model
a·cos((k/m)·θ+φ), while the interface's per-configuration radius function
rhodonea_r evaluates the alternative k·m model a·cos(k·m·θ+φ); the program
carries both models. -/
theorem C2_two_models :
    (∀ theta k m phi a : ℝ, rhodonea theta k m phi a = rhodoneaDivModel theta k m phi a) ∧
    (∀ c : ThomasFlowerConfig, ∀ k m phi a theta : ℝ,
      c.rhodonea_k = .val k → c.rhodonea_m = .val m → c.rhodonea_phi = .val phi →
      c.rhodonea_a = .val a →
      c.rhodonea_r (.val theta) = .val (rhodoneaMulModel theta k m phi a)) := by
  constructor
  · intro theta k m phi a
    rfl
  · intro c k m phi a theta hk hm hphi ha
    unfold ThomasFlowerConfig.rhodonea_r rhodoneaMulModel
    rw [hk, hm, hphi, ha]
    simp only [PFloat.val_mul, PFloat.val_add, PFloat.val_cos]

/-- C2 witness: the amended statement evaluated on the concrete config cfg0. -/
theorem C2_witness :
    cfg0.rhodonea_k = .val 1 ∧ cfg0.rhodonea_m = .val 2 ∧
    cfg0.rhodonea_phi = .val 0 ∧ cfg0.rhodonea_a = .val 1 ∧
    cfg0.rhodonea_r (.val 0) = .val (rhodoneaMulModel 0 1 2 0 1) :=
  ⟨rfl, rfl, rfl, rfl, C2_two_models.2 cfg0 1 2 0 1 0 rfl rfl rfl rfl⟩

/-- C7: to_js_config produces exactly the documented field names and
nesting, and metrics.FI_computed is flower_index of the record's E_flower
and lambda_max. -/
theorem C7_export_schema (c : ThomasFlowerConfig) :
    objKeys c.to_js_config = ["id", "description", "model", "projection", "rhodonea", "metrics", "notes"] ∧
    (lookupJ c.to_js_config "model").map objKeys = some ["b", "dt", "steps", "transient_steps", "seed"] ∧
    ((lookupJ c.to_js_config "model").bind (fun j => lookupJ j "seed")) =
      some (.jarr [.jnum c.seed_x, .jnum c.seed_y, .jnum c.seed_z]) ∧
    (lookupJ c.to_js_config "projection").map objKeys = some ["plane", "rotation"] ∧
    ((lookupJ c.to_js_config "projection").bind (fun j => lookupJ j "rotation")).map objKeys =
      some ["axis", "angle_rad"] ∧
    (lookupJ c.to_js_config "rhodonea").map objKeys = some ["k", "m", "phi", "a", "formula"] ∧
    (lookupJ c.to_js_config "metrics").map objKeys =
      some ["E_flower", "lambda_max", "FI_computed", "FI_reported"] ∧
    ((lookupJ c.to_js_config "metrics").bind (fun j => lookupJ j "FI_computed")) =
      some (.jnum (flower_index c.E_flower c.lambda_max)) ∧
    lookupJ c.to_js_config "id" = some (.jstr c.id) ∧
    lookupJ c.to_js_config "notes" = some (.jstr c.notes) :=
  ⟨rfl, rfl, rfl, rfl, rfl, rfl, rfl, rfl, rfl, rfl⟩

/-- C3 counterexample: a batch of two rows, the first malformed (empty: its
required field b is missing, so float(None) raises TypeError) and the second
well-formed, makes load_configs raise — the well-formed row's configuration
is not returned, although that row alone loads fine. -/
theorem C3_counterexample :
    load_configs [([] : Row), goodRow] = .error .typeError ∧
    load_configs [goodRow] = .ok [cfgGood] :=
  ⟨rfl, rfl⟩

/-- C3 amended: load_configs has no per-row recovery — if any row of the
batch is malformed (its loadConfig raises), the whole call raises and no
list of configurations is returned at all. -/
theorem C3_batch_aborts (rows : List Row) (r : Row) (e : PyErr)
    (hr : r ∈ rows) (h : loadConfig r = .error e)
    (out : List ThomasFlowerConfig) :
    load_configs rows ≠ .ok out := by
  induction rows generalizing out with
  | nil => cases hr
  | cons r' rest ih =>
    rcases List.mem_cons.mp hr with rfl | hmem
    · simp [load_configs, h]
    · cases hc : loadConfig r' with
      | error e' => simp [load_configs, hc]
      | ok c =>
        cases hcs : load_configs rest with
        | error e' => simp [load_configs, hc, hcs]
        | ok cs => exact absurd hcs (ih hmem cs)

/-- C3 witness: the abort theorem evaluated on a concrete two-row batch. -/
theorem C3_witness :
    ([] : Row) ∈ [([] : Row), goodRow] ∧
    loadConfig ([] : Row) = .error .typeError ∧
    load_configs [([] : Row), goodRow] ≠ .ok [cfgGood] :=
  ⟨List.mem_cons_self _ _, rfl,
   C3_batch_aborts [([] : Row), goodRow] ([] : Row) .typeError
     (List.mem_cons_self _ _) rfl [cfgGood]⟩

/-- C4 counterexample: a solver result with success = false and a single
(partial) sample is passed through unchanged by the script — the partial
sample list, not of the requested length, flows into the radial projection
as if it were valid, and no failure is signalled. -/
theorem C4_counterexample :
    trajectory_samples { success := false, y := [⟨1, 1, 1⟩] } = [⟨1, 1, 1⟩] ∧
    (trajectory_samples { success := false, y := [⟨1, 1, 1⟩] }).length ≠ requestedSamples ∧
    (proj_r { success := false, y := [⟨1, 1, 1⟩] }).length = 1 := by
  refine ⟨rfl, ?_, ?_⟩
  · show (1 : ℕ) ≠ 100000
    norm_num
  · simp [proj_r]

/-- C4 amended: the script never inspects sol.success — for every solver
result, failed or not, the returned samples are consumed as-is, and the
radial projection is computed over exactly the samples the solver produced
(however few), with no NumericalDivergence signal anywhere. -/
theorem C4_no_divergence_signal (sol : SolveIvpResult) (h : sol.success = false) :
    trajectory_samples sol = sol.y ∧ (proj_r sol).length = sol.y.length := by
  exact ⟨rfl, by simp [proj_r]⟩

/-- C4 witness: the amended statement evaluated on a concrete failed solve. -/
theorem C4_witness :
    ({ success := false, y := [⟨1, 1, 1⟩] } : SolveIvpResult).success = false ∧
    trajectory_samples ({ success := false, y := [⟨1, 1, 1⟩] } : SolveIvpResult) =
      [⟨1, 1, 1⟩] ∧
    (proj_r ({ success := false, y := [⟨1, 1, 1⟩] } : SolveIvpResult)).length =
      ([(⟨1, 1, 1⟩ : Vec3)]).length :=
  ⟨rfl, (C4_no_divergence_signal { success := false, y := [⟨1, 1, 1⟩] } rfl).1,
   (C4_no_divergence_signal { success := false, y := [⟨1, 1, 1⟩] } rfl).2⟩

/-- Assigning a fresh column (absent from every row) appends one cell to
each row. -/
theorem setCol_append (name : String) (f : Row → PFloat) :
    ∀ df : List Row, (∀ row ∈ df, List.lookup name row = Option.none) →
      setCol df name (df.map f) = df.map (fun row => row ++ [(name, PyVal.float (f row))]) := by
  intro df
  induction df with
  | nil => intro _; rfl
  | cons r rest ih =>
    intro h
    have hr := h r (List.mem_cons_self r rest)
    show List.zipWith _ (r :: rest) (f r :: rest.map f) = _
    rw [List.zipWith_cons_cons]
    have hhead : (if (List.lookup name r).isSome then
        r.map (fun kv => if kv.1 = name then (name, PyVal.float (f r)) else kv)
      else r ++ [(name, PyVal.float (f r))]) = r ++ [(name, PyVal.float (f r))] := by
      rw [hr]
      rfl
    rw [List.map_cons]
    exact congrArg₂ _ hhead (ih (fun row hrow => h row (List.mem_cons_of_mem r hrow)))

/-- Appending a differently named cell does not make an absent key present. -/
theorem lookup_append_none (row : Row) (k k' : String) (v : PyVal)
    (h : List.lookup k row = Option.none) (hne : (k == k') = false) :
    List.lookup k (row ++ [(k', v)]) = Option.none := by
  induction row with
  | nil => simp [List.lookup, hne]
  | cons kv rest ih =>
    cases kv with
    | mk k1 v1 =>
      by_cases hk : k = k1
      · subst hk
        simp [List.lookup] at h
      · have hkb : (k == k1) = false := beq_eq_false_iff_ne.mpr hk
        simp only [List.cons_append, List.lookup, hkb] at h ⊢
        exact ih h

/-- C8 counterexample: on an input that already carries a FI_computed
column, enrichment overwrites that column's value in place (here 5 becomes
NaN) instead of leaving every input value unchanged. -/
theorem C8_counterexample :
    enrich_csv_with_fi [[("FI_computed", .float (.val 5))]] =
      [[("FI_computed", .float .nan), ("FI_delta", .float .nan)]] ∧
    PyVal.float PFloat.nan ≠ PyVal.float (.val 5) := by
  refine ⟨rfl, ?_⟩
  intro h
  cases PyVal.float.inj h

/-- C8 amended: on inputs that do not already carry FI_computed or FI_delta
columns, enrichment keeps every input row's cells and only appends the two
new cells (FI_computed, then FI_delta computed on the row extended with
FI_computed); FI_delta is NaN whenever the FI_reported operand is missing. -/
theorem C8_enrich_appends (df : List Row)
    (h : ∀ row ∈ df, List.lookup "FI_computed" row = Option.none ∧
      List.lookup "FI_delta" row = Option.none) :
    enrich_csv_with_fi df = df.map enrichRow ∧
    (∀ row ∈ df, ∀ kv ∈ row, kv ∈ enrichRow row) ∧
    (∀ row : Row, List.lookup "FI_reported" row = Option.none →
      deltaCell row = PFloat.nan) := by
  refine ⟨?_, ?_, ?_⟩
  · unfold enrich_csv_with_fi
    rw [setCol_append "FI_computed" fiCell df (fun row hrow => (h row hrow).1)]
    rw [setCol_append "FI_delta" deltaCell
      (df.map (fun row => row ++ [("FI_computed", PyVal.float (fiCell row))]))
      (fun row' hrow' => by
        obtain ⟨row, hrow, rfl⟩ := List.mem_map.mp hrow'
        exact lookup_append_none row "FI_delta" "FI_computed" _ (h row hrow).2 rfl)]
    rw [List.map_map]
    rfl
  · intro row hrow kv hkv
    exact List.mem_append_left _ (List.mem_append_left _ hkv)
  · intro row h3
    simp [deltaCell, Row.item, h3]

/-- C8 witness: enrichment of a concrete one-row table without the derived
columns appends exactly the two cells. -/
theorem C8_witness :
    List.lookup "FI_computed" [(("FI_reported" : String), PyVal.float (.val 1))] = Option.none ∧
    List.lookup "FI_delta" [(("FI_reported" : String), PyVal.float (.val 1))] = Option.none ∧
    enrich_csv_with_fi [[(("FI_reported" : String), PyVal.float (.val 1))]] =
      [enrichRow [(("FI_reported" : String), PyVal.float (.val 1))]] := by
  refine ⟨rfl, rfl, ?_⟩
  have h1 := (C8_enrich_appends [[(("FI_reported" : String), PyVal.float (.val 1))]]
    (by
      intro row hrow
      rw [List.mem_singleton] at hrow
      subst hrow
      exact ⟨rfl, rfl⟩)).1
  simpa using h1

/-- Separation of a point from itself is zero. -/
theorem dist3_self (p : Vec3) : dist3 p p = 0 := by
  simp [dist3]

/-- Both branches of the loop body advance the first trajectory. -/
theorem lyapStep_p1 (b dt : ℝ) (s : LyapState) :
    (lyapStep b dt s).p1 = eulerStep b dt s.p1 := by
  unfold lyapStep
  split <;> rfl

/-- Both branches of the loop body advance the second trajectory. -/
theorem lyapStep_p2 (b dt : ℝ) (s : LyapState) :
    (lyapStep b dt s).p2 = eulerStep b dt s.p2 := by
  unfold lyapStep
  split <;> rfl

/-- With coinciding trajectories the separation stays zero forever, so no
renormalization event ever fires: count and sum never change. -/
theorem lyapIter_zero_sep (b dt : ℝ) (k : ℕ) (s : LyapState) (h : s.p1 = s.p2) :
    ((lyapStep b dt)^[k] s).p1 = ((lyapStep b dt)^[k] s).p2 ∧
    ((lyapStep b dt)^[k] s).n = s.n ∧ ((lyapStep b dt)^[k] s).d_sum = s.d_sum := by
  induction k generalizing s with
  | zero => exact ⟨h, rfl, rfl⟩
  | succ k ih =>
    have hnot : ¬ 0 < dist3 (eulerStep b dt s.p1) (eulerStep b dt s.p2) := by
      rw [h, dist3_self]
      exact lt_irrefl 0
    have hstep1 : (lyapStep b dt s).p1 = (lyapStep b dt s).p2 := by
      rw [lyapStep_p1, lyapStep_p2, h]
    have hstepn : (lyapStep b dt s).n = s.n := by
      unfold lyapStep
      rw [if_neg hnot]
    have hstepd : (lyapStep b dt s).d_sum = s.d_sum := by
      unfold lyapStep
      rw [if_neg hnot]
    rw [Function.iterate_succ_apply]
    obtain ⟨a1, a2, a3⟩ := ih (lyapStep b dt s) hstep1
    exact ⟨a1, a2.trans hstepn, a3.trans hstepd⟩

/-- With zero perturbation the two initial states coincide. -/
theorem lyapInit_zero_eps : (lyapInit 0).p1 = (lyapInit 0).p2 := by
  show (⟨1, 1, 1⟩ : Vec3) = ⟨1 + 0, 1, 1⟩
  norm_num

/-- With zero perturbation no event ever fires. -/
theorem lyapFinal_zero_eps_n (b T dt : ℝ) : (lyapFinal b T dt 0).n = 0 :=
  (lyapIter_zero_sep b dt (numSteps T dt) (lyapInit 0) lyapInit_zero_eps).2.1

/-- With zero perturbation the estimate is the defined-zero fallback. -/
theorem lyapunov_estimate_zero_eps (b T dt : ℝ) : lyapunov_estimate b T dt 0 = 0 := by
  unfold lyapunov_estimate
  rw [if_neg]
  rw [lyapFinal_zero_eps_n]
  exact lt_irrefl 0

/-- Telescoping invariant of the loop: either no event has fired yet (count
zero, reference separation still the initial one, zero sum) or the sum is
the log of the ratio of the current reference separation to the initial
one. -/
theorem lyapIter_log_sum (b dt dinit : ℝ) (hd : 0 < dinit) (k : ℕ) (s : LyapState)
    (hbase : (s.n = 0 ∧ s.d0 = dinit ∧ s.d_sum = 0) ∨
      (0 < s.n ∧ 0 < s.d0 ∧ s.d_sum = Real.log (s.d0 / dinit))) :
    (((lyapStep b dt)^[k] s).n = 0 ∧ ((lyapStep b dt)^[k] s).d0 = dinit ∧
      ((lyapStep b dt)^[k] s).d_sum = 0) ∨
    (0 < ((lyapStep b dt)^[k] s).n ∧ 0 < ((lyapStep b dt)^[k] s).d0 ∧
      ((lyapStep b dt)^[k] s).d_sum =
        Real.log (((lyapStep b dt)^[k] s).d0 / dinit)) := by
  induction k generalizing s with
  | zero => simpa using hbase
  | succ k ih =>
    rw [Function.iterate_succ_apply]
    apply ih
    by_cases hpos : 0 < dist3 (eulerStep b dt s.p1) (eulerStep b dt s.p2)
    · right
      unfold lyapStep
      rw [if_pos hpos]
      refine ⟨Nat.succ_pos _, hpos, ?_⟩
      show s.d_sum + Real.log (dist3 (eulerStep b dt s.p1) (eulerStep b dt s.p2) / s.d0) = _
      rcases hbase with ⟨hn, hd0, hsum⟩ | ⟨hn, hd0, hsum⟩
      · rw [hsum, hd0, zero_add]
      · rw [hsum, Real.log_div (ne_of_gt hd0) (ne_of_gt hd),
          Real.log_div (ne_of_gt hpos) (ne_of_gt hd0),
          Real.log_div (ne_of_gt hpos) (ne_of_gt hd)]
        ring
    · unfold lyapStep
      rw [if_neg hpos]
      rcases hbase with ⟨hn, hd0, hsum⟩ | ⟨hn, hd0, hsum⟩
      · exact Or.inl ⟨hn, hd0, hsum⟩
      · exact Or.inr ⟨hn, hd0, hsum⟩

/-- The initial separation is the perturbation magnitude |eps|. -/
theorem dist3_lyapInit (eps : ℝ) : dist3 ⟨1, 1, 1⟩ ⟨1 + eps, 1, 1⟩ = |eps| := by
  show Real.sqrt ((1 + eps - 1) ^ 2 + (1 - 1) ^ 2 + (1 - 1) ^ 2) = |eps|
  rw [show (1 + eps - 1) ^ 2 + ((1 : ℝ) - 1) ^ 2 + ((1 : ℝ) - 1) ^ 2 = eps ^ 2 from by ring,
    Real.sqrt_sq_eq_abs]

/-- A separation is positive as soon as the x coordinates differ. -/
theorem dist3_pos_of_x (p q : Vec3) (h : p.x ≠ q.x) : 0 < dist3 p q := by
  unfold dist3
  apply Real.sqrt_pos.mpr
  have h3 : q.x - p.x ≠ 0 := sub_ne_zero.mpr (Ne.symm h)
  have h2 : 0 < (q.x - p.x) ^ 2 :=
    lt_of_le_of_ne (sq_nonneg _) (Ne.symm (pow_ne_zero 2 h3))
  nlinarith [sq_nonneg (q.y - p.y), sq_nonneg (q.z - p.z)]

/-- For b = 0, dt = 1, eps = 1 the very first step separates the
trajectories. -/
theorem lyapInit_one_step_sep :
    0 < dist3 (eulerStep 0 1 (lyapInit 1).p1) (eulerStep 0 1 (lyapInit 1).p2) := by
  apply dist3_pos_of_x
  show (1 : ℝ) + (Real.sin 1 - 0 * 1) * 1 ≠ (1 + 1) + (Real.sin 1 - 0 * (1 + 1)) * 1
  intro hcontra
  nlinarith [hcontra]

/-- int(T/dt) = 1 loop iteration for T = dt = 1. -/
theorem numSteps_one_one : numSteps 1 1 = 1 := by
  unfold numSteps truncToInt
  rw [if_pos (by norm_num : (0 : ℝ) ≤ 1 / 1)]
  norm_num

/-- The concrete run b = 0, T = 1, dt = 1, eps = 1 fires exactly one event. -/
theorem lyapFinal_example_n : (lyapFinal 0 1 1 1).n = 1 := by
  unfold lyapFinal
  rw [numSteps_one_one, Function.iterate_one]
  unfold lyapStep
  rw [if_pos lyapInit_one_step_sep]
  rfl

/-- C5: the estimator runs int(T/dt) Euler steps; each step with positive
separation d accumulates ln(d/d0), resets d0 and counts the event; the
returned value is sum/(count·dt) when the count is positive and exactly 0
otherwise — in particular the zero-perturbation run returns exactly 0. -/
theorem C5_estimator_contract :
    (∀ b T dt : ℝ, lyapunov_estimate b T dt 0 = 0 ∧ (lyapFinal b T dt 0).n = 0) ∧
    (∀ b dt : ℝ, ∀ s : LyapState,
      0 < dist3 (eulerStep b dt s.p1) (eulerStep b dt s.p2) →
      lyapStep b dt s =
        { p1 := eulerStep b dt s.p1, p2 := eulerStep b dt s.p2,
          d0 := dist3 (eulerStep b dt s.p1) (eulerStep b dt s.p2),
          d_sum := s.d_sum + Real.log (dist3 (eulerStep b dt s.p1) (eulerStep b dt s.p2) / s.d0),
          n := s.n + 1 }) ∧
    (∀ b T dt eps : ℝ, 0 < (lyapFinal b T dt eps).n →
      lyapunov_estimate b T dt eps =
        (lyapFinal b T dt eps).d_sum / (((lyapFinal b T dt eps).n : ℝ) * dt)) ∧
    (∀ b T dt eps : ℝ, (lyapFinal b T dt eps).n = 0 → lyapunov_estimate b T dt eps = 0) ∧
    (∀ T dt : ℝ, numSteps T dt = (truncToInt (T / dt)).toNat) := by
  refine ⟨?_, ?_, ?_, ?_, fun T dt => rfl⟩
  · exact fun b T dt => ⟨lyapunov_estimate_zero_eps b T dt, lyapFinal_zero_eps_n b T dt⟩
  · intro b dt s hpos
    unfold lyapStep
    rw [if_pos hpos]
  · intro b T dt eps hn
    unfold lyapunov_estimate
    rw [if_pos hn]
  · intro b T dt eps hn
    unfold lyapunov_estimate
    rw [if_neg]
    rw [hn]
    exact lt_irrefl 0

/-- C5 witness: the contract evaluated on concrete runs (zero perturbation,
and the one-event run b = 0, T = dt = eps = 1). -/
theorem C5_witness :
    lyapunov_estimate 0 1 1 0 = 0 ∧
    0 < dist3 (eulerStep 0 1 (lyapInit 1).p1) (eulerStep 0 1 (lyapInit 1).p2) ∧
    lyapStep 0 1 (lyapInit 1) =
      { p1 := eulerStep 0 1 (lyapInit 1).p1, p2 := eulerStep 0 1 (lyapInit 1).p2,
        d0 := dist3 (eulerStep 0 1 (lyapInit 1).p1) (eulerStep 0 1 (lyapInit 1).p2),
        d_sum := (lyapInit 1).d_sum +
          Real.log (dist3 (eulerStep 0 1 (lyapInit 1).p1) (eulerStep 0 1 (lyapInit 1).p2) /
            (lyapInit 1).d0),
        n := (lyapInit 1).n + 1 } ∧
    0 < (lyapFinal 0 1 1 1).n ∧
    lyapunov_estimate 0 1 1 1 =
      (lyapFinal 0 1 1 1).d_sum / (((lyapFinal 0 1 1 1).n : ℝ) * 1) :=
  ⟨(C5_estimator_contract.1 0 1 1).1, lyapInit_one_step_sep,
   C5_estimator_contract.2.1 0 1 (lyapInit 1) lyapInit_one_step_sep,
   by rw [lyapFinal_example_n]; norm_num,
   C5_estimator_contract.2.2.1 0 1 1 1 (by rw [lyapFinal_example_n]; norm_num)⟩

/-- C10: the accumulated sum telescopes — whenever at least one event fired,
the sum equals ln(d_last/|eps|) where d_last is the reference separation
left by the last fired event and |eps| the initial perturbation magnitude,
so the estimate is ln(d_last/|eps|)/(count·dt). -/
theorem C10_telescoping (b T dt eps : ℝ) (heps : eps ≠ 0)
    (hn : 0 < (lyapFinal b T dt eps).n) :
    (lyapFinal b T dt eps).d_sum = Real.log ((lyapFinal b T dt eps).d0 / |eps|) ∧
    lyapunov_estimate b T dt eps =
      Real.log ((lyapFinal b T dt eps).d0 / |eps|) / (((lyapFinal b T dt eps).n : ℝ) * dt) := by
  have habs : 0 < |eps| := abs_pos.mpr heps
  have hbase : ((lyapInit eps).n = 0 ∧ (lyapInit eps).d0 = |eps| ∧ (lyapInit eps).d_sum = 0) ∨
      (0 < (lyapInit eps).n ∧ 0 < (lyapInit eps).d0 ∧
        (lyapInit eps).d_sum = Real.log ((lyapInit eps).d0 / |eps|)) :=
    Or.inl ⟨rfl, dist3_lyapInit eps, rfl⟩
  have h2 : ((lyapFinal b T dt eps).n = 0 ∧ (lyapFinal b T dt eps).d0 = |eps| ∧
      (lyapFinal b T dt eps).d_sum = 0) ∨
      (0 < (lyapFinal b T dt eps).n ∧ 0 < (lyapFinal b T dt eps).d0 ∧
        (lyapFinal b T dt eps).d_sum = Real.log ((lyapFinal b T dt eps).d0 / |eps|)) :=
    lyapIter_log_sum b dt |eps| habs (numSteps T dt) (lyapInit eps) hbase
  rcases h2 with ⟨h0, _, _⟩ | ⟨_, _, hsum⟩
  · rw [h0] at hn
    exact absurd hn (lt_irrefl 0)
  · refine ⟨hsum, ?_⟩
    unfold lyapunov_estimate
    rw [if_pos hn, hsum]

/-- C10 witness: the telescoping identity evaluated on the concrete
one-event run b = 0, T = dt = eps = 1. -/
theorem C10_witness :
    (1 : ℝ) ≠ 0 ∧ 0 < (lyapFinal 0 1 1 1).n ∧
    (lyapFinal 0 1 1 1).d_sum = Real.log ((lyapFinal 0 1 1 1).d0 / |(1 : ℝ)|) :=
  ⟨by norm_num, by rw [lyapFinal_example_n]; norm_num,
   (C10_telescoping 0 1 1 1 (by norm_num) (by rw [lyapFinal_example_n]; norm_num)).1⟩

/-- C9: the fitter input is the evenly spaced, deterministic index subset
(8000 indices, nondecreasing, from 0 up to n−1) of the polar samples, while
the reported radial RMS error is the spec's full-sample formula — it is
computed over the complete, non-subsampled lists. -/
theorem C9_fit_subsample_full_error :
    (∀ thetaL : List ℝ,
      fitThetaSubset thetaL = selectIdx thetaL (linspaceIdx thetaL.length 8000) ∧
      (fitThetaSubset thetaL).length = 8000) ∧
    (∀ n m i j : ℕ, i ≤ j → linIdx n m i ≤ linIdx n m j) ∧
    (∀ n m : ℕ, 1 ≤ n → 2 ≤ m →
      (linspaceIdx n m).getD 0 0 = 0 ∧
      (linspaceIdx n m).getD (m - 1) 0 = n - 1 ∧
      ∀ i ∈ linspaceIdx n m, i ≤ n - 1) ∧
    (∀ thetaL rL : List ℝ, ∀ k m phi a : ℝ,
      E_flower_calc thetaL rL k m phi a = E_spec_full thetaL rL k m phi a) := by
  refine ⟨?_, ?_, ?_, fun thetaL rL k m phi a => rfl⟩
  · intro thetaL
    exact ⟨rfl, by simp [fitThetaSubset, selectIdx, linspaceIdx]⟩
  · intro n m i j hij
    exact Nat.div_le_div_right (Nat.mul_le_mul_right (n - 1) hij)
  · intro n m hn hm
    have hm1 : 0 < m - 1 := by omega
    refine ⟨?_, ?_, ?_⟩
    · rw [linspaceIdx, List.getD_eq_getElem?_getD, List.getElem?_map,
        List.getElem?_range (by omega : 0 < m)]
      simp [linIdx]
    · rw [linspaceIdx, List.getD_eq_getElem?_getD, List.getElem?_map,
        List.getElem?_range (by omega : m - 1 < m)]
      show (m - 1) * (n - 1) / (m - 1) = n - 1
      exact Nat.mul_div_cancel_left (n - 1) hm1
    · intro i hi
      obtain ⟨i0, hi0, rfl⟩ := List.mem_map.mp hi
      have hi0m : i0 < m := List.mem_range.mp hi0
      calc linIdx n m i0 ≤ linIdx n m (m - 1) :=
            Nat.div_le_div_right (Nat.mul_le_mul_right (n - 1) (by omega))
        _ = n - 1 := Nat.mul_div_cancel_left (n - 1) hm1

/-- C9 witness: the subsampling facts evaluated at concrete sizes n = 5,
m = 3 (indices [0, 2, 4]) and the subset/error shapes on a concrete list. -/
theorem C9_witness :
    (0 : ℕ) ≤ 1 ∧ linIdx 5 3 0 ≤ linIdx 5 3 1 ∧
    (1 : ℕ) ≤ 5 ∧ (2 : ℕ) ≤ 3 ∧
    (linspaceIdx 5 3).getD 0 0 = 0 ∧ (linspaceIdx 5 3).getD (3 - 1) 0 = 5 - 1 ∧
    fitThetaSubset [] = selectIdx [] (linspaceIdx ([] : List ℝ).length 8000) := by
  have h3 := C9_fit_subsample_full_error.2.2.1 5 3 (by norm_num) (by norm_num)
  exact ⟨by norm_num, C9_fit_subsample_full_error.2.1 5 3 0 1 (by norm_num),
    by norm_num, by norm_num, h3.1, h3.2.1,
    (C9_fit_subsample_full_error.1 []).1⟩
